import Mathlib

/-!
Verification of the workflow orchestration engine of the "ai-employee"
repository against its natural-language specification.

The Python sources are shallowly embedded as executable Lean definitions:

* `src/workflow/hitl.py`             — risk classifier (`HITLClassifier`)
* `src/workflow/task_processor.py`   — task processor (`TaskProcessor`)
* `src/workflow/approval_handler.py` — approval handler (`ApprovalHandler`)
* `src/orchestrator/watchdog.py`     — watchdog monitor (`WatchdogMonitor`)
* `src/orchestrator/ralph_loop.py`   — multi-step runner (`RalphWiggumLoop`)
* `src/orchestrator/scheduler.py`    — scheduler (`Scheduler`)

Python strings are modelled as `String` / `List Char`; dollar amounts are
modelled exactly in integer cents (`Nat`); filesystem folders are modelled as
association lists from filename to content; the audit sink is modelled as a
list of emitted event kinds.  Fallible filesystem moves are modelled by an
explicit failure environment where an error-handling claim requires it.
-/

set_option linter.unusedVariables false

namespace AIEmployee

/-! ## Shared string machinery (Python `in`, `str.lower`, `str.strip`) -/

/-- Python-style metadata dictionary with string values. -/
abbrev Metadata := List (String × String)

/-- `dict.get(k)`: first binding of `k`, if any. -/
def mdGet (md : Metadata) (k : String) : Option String :=
  match md.find? (fun p => p.1 = k) with
  | some p => some p.2
  | none => none

/-- `dict.get(k, d)`: binding of `k`, or the default `d`. -/
def mdGetD (md : Metadata) (k : String) (d : String) : String :=
  (mdGet md k).getD d

/-- Does the character sequence `n` occur at the start of `h`? -/
def startsWithSeq : List Char → List Char → Bool
  | [], _ => true
  | _ :: _, [] => false
  | a :: n, b :: h => a = b && startsWithSeq n h

/-- Python `n in h` on strings: `n` occurs as a contiguous subsequence of `h`. -/
def hasSub (n : List Char) : List Char → Bool
  | [] => n.isEmpty
  | c :: t => startsWithSeq n (c :: t) || hasSub n t

/-- Python `kw in content` for a string literal keyword. -/
def inStr (kw : String) (content : List Char) : Bool :=
  hasSub kw.toList content

/-- Python `str.lower()` (ASCII case folding). -/
def lowerChars (l : List Char) : List Char :=
  l.map Char.toLower

/-! ## `src/workflow/hitl.py` — the HITL risk classifier -/

/-- `ActionType` enumeration of `hitl.py`. -/
inductive ActionType where
  | reply_email
  | send_email
  | create_file
  | delete_file
  | payment
  | social_post
  | social_reply
  | schedule
  | archive
  | information
  | unknown
deriving DecidableEq, Repr

/-- The classifier's three risk tiers (`risk_level` field, "low, medium, high"). -/
inductive RiskLevel where
  | low
  | medium
  | high
deriving DecidableEq, Repr

/-- `HITLDecision` dataclass of `hitl.py`. -/
structure HITLDecision where
  requires_approval : Bool
  reasons : List String
  action_type : ActionType
  risk_level : RiskLevel
  suggested_action : String
deriving DecidableEq, Repr

/-- `HITLClassifier.SENSITIVE_KEYWORDS`, in Python dict insertion order. -/
def SENSITIVE_KEYWORDS : List (String × List String) :=
  [("payment", ["payment", "pay", "transfer", "wire", "invoice", "bill", "charge"]),
   ("financial", ["bank", "credit card", "account", "money", "dollar", "$", "cost"]),
   ("personal", ["password", "ssn", "social security", "confidential", "private"]),
   ("legal", ["contract", "agreement", "legal", "lawsuit", "attorney"]),
   ("medical", ["medical", "health", "doctor", "prescription", "diagnosis"])]

/-- `HITLClassifier.SAFE_KEYWORDS` (unused by `classify`, kept for completeness). -/
def SAFE_KEYWORDS : List String :=
  ["read", "review", "check", "analyze", "summarize", "draft", "list"]

/-- `HITLClassifier._detect_action_type(content, metadata)`; `content` is the
lowercased task text.  Note that a `gmail`/`email` source short-circuits all
later keyword branches, including the `delete`/`remove` branch. -/
def detect_action_type (content : List Char) (metadata : Metadata) : ActionType :=
  let source := lowerChars (mdGetD metadata "source" "").toList
  if inStr "gmail" source || inStr "email" source then
    if inStr "reply" content || inStr "respond" content then ActionType.reply_email
    else if inStr "send" content || inStr "compose" content then ActionType.send_email
    else ActionType.information
  else if inStr "delete" content || inStr "remove" content then ActionType.delete_file
  else if inStr "create" content || inStr "write" content then ActionType.create_file
  else if ["pay", "payment", "transfer", "invoice"].any (fun kw => inStr kw content) then
    ActionType.payment
  else if ["post", "tweet", "linkedin", "facebook"].any (fun kw => inStr kw content) then
    if inStr "reply" content || inStr "comment" content then ActionType.social_reply
    else ActionType.social_post
  else if ["schedule", "calendar", "meeting", "appointment"].any (fun kw => inStr kw content) then
    ActionType.schedule
  else if ["archive", "organize", "file", "categorize"].any (fun kw => inStr kw content) then
    ActionType.archive
  else ActionType.unknown

/-- The `\s` character class of Python `re` (ASCII part). -/
def isWs (c : Char) : Bool :=
  c = ' ' || c = '\t' || c = '\n' || c = '\x0d' || c = '\x0b' || c = '\x0c'

/-- Numeric value of a decimal digit character. -/
def digitVal (c : Char) : Nat :=
  c.toNat - '0'.toNat

/-- Decimal number denoted by a digit sequence. -/
def natOfDigits (ds : List Char) : Nat :=
  ds.foldl (fun a c => a * 10 + digitVal c) 0

/-- Greedy match of the `(?:,\d{3})*` part of `AMOUNT_PATTERN`: returns the
digits of the matched comma groups and the unconsumed rest. -/
def commaGroups : List Char → List Char × List Char
  | ',' :: a :: b :: c :: rest =>
      if a.isDigit && b.isDigit && c.isDigit then
        let r := commaGroups rest
        (a :: b :: c :: r.1, r.2)
      else ([], ',' :: a :: b :: c :: rest)
  | cs => ([], cs)

/-- Match the `\s*(\d+(?:,\d{3})*(?:\.\d{2})?)` tail of `AMOUNT_PATTERN`
directly after a `$`.  Returns the matched amount in integer cents together
with the unconsumed rest of the input, or `none` when the pattern does not
match here.  (All quantified sub-patterns of the regex can match the empty
string after a greedy step, so greedy matching without backtracking agrees
with Python `re` on this pattern.) -/
def matchAmount (cs : List Char) : Option (Nat × List Char) :=
  let afterWs := cs.dropWhile isWs
  let intDigits := afterWs.takeWhile Char.isDigit
  let rest1 := afterWs.dropWhile Char.isDigit
  if intDigits.isEmpty then none
  else
    let groups := commaGroups rest1
    let centsRest : Nat × List Char :=
      match groups.2 with
      | '.' :: d1 :: d2 :: r =>
          if d1.isDigit && d2.isDigit then (digitVal d1 * 10 + digitVal d2, r)
          else (0, groups.2)
      | _ => (0, groups.2)
    some (natOfDigits (intDigits ++ groups.1) * 100 + centsRest.1, centsRest.2)

/-- Left-to-right non-overlapping scan of `AMOUNT_PATTERN.finditer`; `fuel`
bounds the recursion and is adequate whenever it is at least the input
length. -/
def scanAmounts : Nat → List Char → List Nat
  | 0, _ => []
  | _ + 1, [] => []
  | fuel + 1, c :: rest =>
      if c = '$' then
        match matchAmount rest with
        | some vr => vr.1 :: scanAmounts fuel vr.2
        | none => scanAmounts fuel rest
      else scanAmounts fuel rest

/-- `HITLClassifier._extract_amounts(content)`: all dollar amounts occurring in
the content, in integer cents (the comparisons `> 50` and `> 0` on Python
floats of this shape coincide with `> 5000` and `> 0` on cents). -/
def extract_amounts (content : String) : List Nat :=
  scanAmounts content.toList.length content.toList

/-- Two-decimal rendering of an amount in cents (`f"{amount:.2f}"`). -/
def formatCents (c : Nat) : String :=
  toString (c / 100) ++ "." ++ (if c % 100 < 10 then "0" else "") ++ toString (c % 100)

/-- The "Check for payment amounts" block of `classify`: initial reasons and
risk derived from the extracted amounts. -/
def amounts_scan (task_content : String) : List String × RiskLevel :=
  let amounts := extract_amounts task_content
  let maxAmt := amounts.foldl max 0
  if amounts.isEmpty then ([], RiskLevel.low)
  else if 5000 < maxAmt then
    (["Payment amount $" ++ formatCents maxAmt ++ " exceeds $50 threshold"], RiskLevel.high)
  else if 0 < maxAmt then
    (["Contains payment amount $" ++ formatCents maxAmt], RiskLevel.medium)
  else ([], RiskLevel.low)

/-- One iteration of the "Check for sensitive keywords" loop of `classify`. -/
def keyword_scan_step (content : List Char) (acc : List String × RiskLevel)
    (entry : String × List String) : List String × RiskLevel :=
  if entry.2.any (fun kw => inStr kw content) then
    (acc.1 ++ ["Contains " ++ entry.1 ++ "-related content"],
     if entry.1 = "payment" ∨ entry.1 = "financial" ∨ entry.1 = "legal" then RiskLevel.high
     else if acc.2 = RiskLevel.low then RiskLevel.medium
     else acc.2)
  else acc

/-- Python `metadata.get("to") or metadata.get("from", "")` (falling through
on a missing or empty `to`). -/
def recipient_of (metadata : Metadata) : String :=
  match mdGet metadata "to" with
  | some s => if s = "" then mdGetD metadata "from" "" else s
  | none => mdGetD metadata "from" ""

/-- The "Check email recipient" block of `classify`. -/
def email_step (known_contacts : List String) (metadata : Metadata)
    (action_type : ActionType) (acc : List String × RiskLevel) : List String × RiskLevel :=
  if action_type = ActionType.send_email ∨ action_type = ActionType.reply_email then
    let recipient := recipient_of metadata
    if recipient ≠ "" ∧ recipient ∉ known_contacts then
      (acc.1 ++ ["Email to unknown recipient: " ++ recipient],
       if acc.2 = RiskLevel.low then RiskLevel.medium else acc.2)
    else acc
  else acc

/-- The "Check for file operations" block of `classify`. -/
def delete_step (action_type : ActionType) (acc : List String × RiskLevel) :
    List String × RiskLevel :=
  if action_type = ActionType.delete_file then
    (acc.1 ++ ["File deletion is irreversible"], RiskLevel.high)
  else acc

/-- The "Check for social media" block of `classify`. -/
def social_step (action_type : ActionType) (acc : List String × RiskLevel) :
    List String × RiskLevel :=
  if action_type = ActionType.social_post ∨ action_type = ActionType.social_reply then
    (acc.1 ++ ["Social media actions are public and visible"],
     if acc.2 = RiskLevel.low then RiskLevel.medium else acc.2)
  else acc

/-- `HITLClassifier._suggest_action` (the `content` argument is unused in the
source as well). -/
def suggest_action (action_type : ActionType) (requires_approval : Bool)
    (content : List Char) : String :=
  if requires_approval then "Move to Pending_Approval for human review"
  else
    match action_type with
    | ActionType.reply_email => "Draft reply and auto-send to known contact"
    | ActionType.information => "Categorize and archive"
    | ActionType.archive => "Move to appropriate folder"
    | ActionType.schedule => "Add to calendar"
    | ActionType.create_file => "Create file in vault"
    | _ => "Process and move to Done"

/-- The reasons/risk accumulator of `classify` after all five rule blocks,
applied in source order: amounts, sensitive keywords, email recipient, file
deletion, social media. -/
def classify_acc (known_contacts : List String) (task_content : String)
    (metadata : Metadata) : List String × RiskLevel :=
  let content_lower := lowerChars task_content.toList
  let action_type := detect_action_type content_lower metadata
  social_step action_type
    (delete_step action_type
      (email_step known_contacts metadata action_type
        (SENSITIVE_KEYWORDS.foldl (keyword_scan_step content_lower)
          (amounts_scan task_content))))

/-- `HITLClassifier.classify(task_content, metadata)` for a classifier built
with the given `known_contacts`. -/
def classify (known_contacts : List String) (task_content : String)
    (metadata : Metadata) : HITLDecision :=
  let content_lower := lowerChars task_content.toList
  let action_type := detect_action_type content_lower metadata
  let acc := classify_acc known_contacts task_content metadata
  let requires_approval :=
    !acc.1.isEmpty || acc.2 = RiskLevel.medium || acc.2 = RiskLevel.high
  { requires_approval := requires_approval
    reasons :=
      if acc.1.isEmpty then ["Standard processing - no sensitive content detected"]
      else acc.1
    action_type := action_type
    risk_level := acc.2
    suggested_action := suggest_action action_type requires_approval content_lower }

/-! ## Classifier lemmas -/

/-- The seed of a running maximum is a lower bound of the result. -/
theorem le_foldl_max_seed (l : List Nat) (s : Nat) : s ≤ l.foldl max s := by
  induction l generalizing s with
  | nil => exact le_refl s
  | cons b t ih => exact le_trans (le_max_left s b) (ih (max s b))

/-- Every member of a list is bounded by its running maximum. -/
theorem mem_le_foldl_max (l : List Nat) (s a : Nat) (h : a ∈ l) : a ≤ l.foldl max s := by
  induction l generalizing s with
  | nil => cases h
  | cons b t ih =>
    rcases List.mem_cons.mp h with rfl | hmem
    · exact le_trans (le_max_right s a) (le_foldl_max_seed t (max s a))
    · exact ih (max s b) hmem

/-- If some extracted amount exceeds 5000 cents, the amounts block of
`classify` already yields `high` risk. -/
theorem amounts_scan_high (text : String) (a : Nat) (ha : a ∈ extract_amounts text)
    (h50 : 5000 < a) : (amounts_scan text).2 = RiskLevel.high := by
  unfold amounts_scan
  have hne : (extract_amounts text).isEmpty = false := by
    cases hext : extract_amounts text with
    | nil => rw [hext] at ha; cases ha
    | cons x t => rfl
  have hmax : 5000 < (extract_amounts text).foldl max 0 :=
    lt_of_lt_of_le h50 (mem_le_foldl_max _ 0 a ha)
  simp [hne, hmax]

/-- Once the accumulator has reached `high` risk, a keyword-scan iteration
never lowers it. -/
theorem keyword_scan_step_keeps_high (content : List Char) (acc : List String × RiskLevel)
    (e : String × List String) (h : acc.2 = RiskLevel.high) :
    (keyword_scan_step content acc e).2 = RiskLevel.high := by
  unfold keyword_scan_step
  by_cases hhit : e.2.any (fun kw => inStr kw content) = true
  · by_cases hp : e.1 = "payment" ∨ e.1 = "financial" ∨ e.1 = "legal"
    · simp [hhit, hp]
    · simp [hhit, hp, h]
  · simp [hhit, h]

/-- The whole keyword scan never lowers `high` risk. -/
theorem keyword_fold_keeps_high (content : List Char) (l : List (String × List String))
    (acc : List String × RiskLevel) (h : acc.2 = RiskLevel.high) :
    (l.foldl (keyword_scan_step content) acc).2 = RiskLevel.high := by
  induction l generalizing acc with
  | nil => exact h
  | cons e t ih => exact ih _ (keyword_scan_step_keeps_high content acc e h)

/-- The email-recipient block never lowers `high` risk. -/
theorem email_step_keeps_high (kc : List String) (md : Metadata) (a : ActionType)
    (acc : List String × RiskLevel) (h : acc.2 = RiskLevel.high) :
    (email_step kc md a acc).2 = RiskLevel.high := by
  unfold email_step
  by_cases ha : a = ActionType.send_email ∨ a = ActionType.reply_email
  · by_cases hr : ¬recipient_of md = "" ∧ recipient_of md ∉ kc
    · simp [ha, hr, h]
    · simp [ha, hr, h]
  · simp [ha, h]

/-- The file-deletion block never lowers `high` risk. -/
theorem delete_step_keeps_high (a : ActionType) (acc : List String × RiskLevel)
    (h : acc.2 = RiskLevel.high) : (delete_step a acc).2 = RiskLevel.high := by
  unfold delete_step
  split
  · rfl
  · exact h

/-- On a `delete_file` action the file-deletion block forces `high` risk
unconditionally. -/
theorem delete_step_delete (acc : List String × RiskLevel) :
    (delete_step ActionType.delete_file acc).2 = RiskLevel.high := by
  simp [delete_step]

/-- The social-media block never lowers `high` risk. -/
theorem social_step_keeps_high (a : ActionType) (acc : List String × RiskLevel)
    (h : acc.2 = RiskLevel.high) : (social_step a acc).2 = RiskLevel.high := by
  unfold social_step
  split
  · simp [h]
  · exact h

/-- The final risk of `classify` is the accumulator's risk. -/
theorem classify_risk_level (kc : List String) (text : String) (md : Metadata) :
    (classify kc text md).risk_level = (classify_acc kc text md).2 := rfl

/-- `high` final risk forces `requires_approval`. -/
theorem requires_of_high (kc : List String) (text : String) (md : Metadata)
    (h : (classify_acc kc text md).2 = RiskLevel.high) :
    (classify kc text md).requires_approval = true := by
  have hr : (classify kc text md).requires_approval =
      (!(classify_acc kc text md).1.isEmpty ||
        (classify_acc kc text md).2 = RiskLevel.medium ||
        (classify_acc kc text md).2 = RiskLevel.high) := rfl
  rw [hr, h]
  simp

/-- If the keyword scan already ends at `high` risk, so does `classify`. -/
theorem classify_acc_high_of_fold (kc : List String) (text : String) (md : Metadata)
    (h : (SENSITIVE_KEYWORDS.foldl (keyword_scan_step (lowerChars text.toList))
        (amounts_scan text)).2 = RiskLevel.high) :
    (classify_acc kc text md).2 = RiskLevel.high := by
  unfold classify_acc
  exact social_step_keeps_high _ _ (delete_step_keeps_high _ _ (email_step_keeps_high _ _ _ _ h))

/-- A nonempty amount scan can only arise from a text containing a dollar sign. -/
theorem scanAmounts_dollar (fuel : Nat) : ∀ cs : List Char,
    scanAmounts fuel cs ≠ [] → '$' ∈ cs := by
  induction fuel with
  | zero => intro cs h; simp [scanAmounts] at h
  | succ n ih =>
    intro cs h
    cases cs with
    | nil => simp [scanAmounts] at h
    | cons c rest =>
      by_cases hc : c = '$'
      · subst hc; exact List.mem_cons_self _ _
      · have hrec : scanAmounts n rest ≠ [] := by
          rw [scanAmounts, if_neg hc] at h
          exact h
        exact List.mem_cons_of_mem c (ih rest hrec)

/-- Singleton substring search is membership. -/
theorem hasSub_singleton (c : Char) (l : List Char) (h : c ∈ l) : hasSub [c] l = true := by
  induction l with
  | nil => cases h
  | cons b t ih =>
    rcases List.mem_cons.mp h with rfl | hmem
    · simp [hasSub, startsWithSeq]
    · simp [hasSub, ih hmem]

/-- A text with any extracted dollar amount contains `$` after lowercasing. -/
theorem inStr_dollar_of_amounts (text : String) (h : extract_amounts text ≠ []) :
    inStr "$" (lowerChars text.toList) = true := by
  have h1 : '$' ∈ text.toList := scanAmounts_dollar _ _ h
  have hlow : Char.toLower '$' = '$' := by decide
  have h2 : '$' ∈ lowerChars text.toList := by
    have hm := List.mem_map_of_mem Char.toLower h1
    rw [hlow] at hm
    exact hm
  have h3 : "$".toList = ['$'] := rfl
  unfold inStr
  rw [h3]
  exact hasSub_singleton '$' _ h2

/-- A `$` in the content trips the `financial` keyword category and forces
`high` risk out of the keyword scan, whatever the accumulator held before. -/
theorem keyword_fold_financial (content : List Char) (h : inStr "$" content = true)
    (acc : List String × RiskLevel) :
    (SENSITIVE_KEYWORDS.foldl (keyword_scan_step content) acc).2 = RiskLevel.high := by
  have hfin : ∀ acc2 : List String × RiskLevel,
      (keyword_scan_step content acc2
        ("financial", ["bank", "credit card", "account", "money", "dollar", "$", "cost"])).2 =
        RiskLevel.high := by
    intro acc2
    have hany : (["bank", "credit card", "account", "money", "dollar", "$", "cost"] :
        List String).any (fun kw => inStr kw content) = true :=
      List.any_eq_true.mpr ⟨"$", by decide, h⟩
    unfold keyword_scan_step
    simp [hany]
  simp only [SENSITIVE_KEYWORDS, List.foldl]
  exact keyword_scan_step_keeps_high _ _ _
    (keyword_scan_step_keeps_high _ _ _ (keyword_scan_step_keeps_high _ _ _ (hfin _)))

/-! ## Claim C2 -/

/-- C2: for every task text containing a dollar-amount token (per
`AMOUNT_PATTERN`, amounts in cents) whose value is greater than 50 dollars,
and for every metadata map and known-contacts set, `classify` requires
approval and reports `high` risk. -/
theorem C2_amount_over_50_requires_approval (kc : List String) (text : String)
    (md : Metadata) (a : Nat) (ha : a ∈ extract_amounts text) (h50 : 5000 < a) :
    (classify kc text md).requires_approval = true ∧
      (classify kc text md).risk_level = RiskLevel.high := by
  have hacc : (classify_acc kc text md).2 = RiskLevel.high :=
    classify_acc_high_of_fold kc text md
      (keyword_fold_keeps_high _ _ _ (amounts_scan_high text a ha h50))
  exact ⟨requires_of_high kc text md hacc, by rw [classify_risk_level]; exact hacc⟩

/-- C2 witness: `"pay $75.00 now"` contains the token `$75.00` (7500 cents),
and classification requires approval at `high` risk. -/
theorem C2_witness :
    7500 ∈ extract_amounts "pay $75.00 now" ∧
      (classify [] "pay $75.00 now" []).requires_approval = true ∧
      (classify [] "pay $75.00 now" []).risk_level = RiskLevel.high :=
  ⟨by decide, C2_amount_over_50_requires_approval [] "pay $75.00 now" [] 7500
    (by decide) (by decide)⟩

/-! ## Claim C10 -/

/-- C10: any task text containing a dollar-amount token is classified at
`high` risk — even when every amount is at most 50 dollars — because `$` is a
`financial` keyword and any financial hit forces risk to `high`; the `medium`
tier for amounts in (0, 50] is therefore unreachable for `$`-written amounts. -/
theorem C10_dollar_token_forces_high (kc : List String) (text : String) (md : Metadata)
    (h : extract_amounts text ≠ []) :
    (classify kc text md).risk_level = RiskLevel.high := by
  have hd : inStr "$" (lowerChars text.toList) = true := inStr_dollar_of_amounts text h
  have hacc : (classify_acc kc text md).2 = RiskLevel.high :=
    classify_acc_high_of_fold kc text md (keyword_fold_financial _ hd _)
  rw [classify_risk_level]
  exact hacc

/-- C10 witness: `"tip $3.50"` has only the amount 350 cents (in (0, 50]
dollars), yet is classified at `high` risk. -/
theorem C10_witness :
    extract_amounts "tip $3.50" = [350] ∧
      (classify [] "tip $3.50" []).risk_level = RiskLevel.high :=
  ⟨by decide, C10_dollar_token_forces_high [] "tip $3.50" [] (by decide)⟩

/-! ## Claim C1 -/

/-- When the metadata source does not route to the email branch, a
`delete`/`remove` text is detected as a file deletion. -/
theorem detect_delete (content : List Char) (md : Metadata)
    (hdel : inStr "delete" content = true ∨ inStr "remove" content = true)
    (hg : inStr "gmail" (lowerChars (mdGetD md "source" "").toList) = false)
    (he : inStr "email" (lowerChars (mdGetD md "source" "").toList) = false) :
    detect_action_type content md = ActionType.delete_file := by
  have hg' : inStr "gmail" (lowerChars (mdGetD md "source" "").data) = false := hg
  have he' : inStr "email" (lowerChars (mdGetD md "source" "").data) = false := he
  unfold detect_action_type
  rcases hdel with h | h <;> simp [hg, hg', he, he', h]

/-- C1 counterexample: the claim fails as stated.  The task text contains the
word `delete`, yet with metadata `{"source": "gmail"}` the classifier takes
the email branch of `_detect_action_type`, never reaches the deletion rule,
finds no other signal, and auto-approves. -/
theorem C1_counterexample :
    inStr "delete" (lowerChars ("Please delete the old note".toList)) = true ∧
      (classify [] "Please delete the old note" [("source", "gmail")]).requires_approval
        = false := by
  constructor
  · decide
  · decide

/-- C1 (amended): for every task text containing `delete` or `remove` (after
lowercasing) and every metadata map whose `source` value does not contain
`gmail` or `email`, classification requires approval, regardless of any
dollar amounts. -/
theorem C1_delete_requires_approval (kc : List String) (text : String) (md : Metadata)
    (hdel : inStr "delete" (lowerChars text.toList) = true ∨
      inStr "remove" (lowerChars text.toList) = true)
    (hg : inStr "gmail" (lowerChars (mdGetD md "source" "").toList) = false)
    (he : inStr "email" (lowerChars (mdGetD md "source" "").toList) = false) :
    (classify kc text md).requires_approval = true := by
  have hact := detect_delete (lowerChars text.toList) md hdel hg he
  have hacc : (classify_acc kc text md).2 = RiskLevel.high := by
    simp only [classify_acc]
    rw [hact]
    exact social_step_keeps_high _ _ (delete_step_delete _)
  exact requires_of_high kc text md hacc

/-- C1 witness: a `delete` text with empty metadata is flagged for approval. -/
theorem C1_witness :
    (classify [] "delete the old file" []).requires_approval = true :=
  C1_delete_requires_approval [] "delete the old file" []
    (Or.inl (by decide)) (by decide) (by decide)

/-! ## `src/orchestrator/scheduler.py` — the interval scheduler -/

/-- `ScheduledTask` of `scheduler.py`; instants are abstract (`Nat` seconds). -/
structure ScheduledTask where
  name : String
  interval_seconds : Nat
  last_run : Option Nat
  next_run : Nat
  run_count : Nat
  error_count : Nat
deriving DecidableEq, Repr

/-- `ScheduledTask.__init__`. -/
def ScheduledTask.init (name : String) (interval_seconds : Nat) (run_immediately : Bool)
    (now : Nat) : ScheduledTask :=
  { name := name
    interval_seconds := interval_seconds
    last_run := none
    next_run := if run_immediately then now else now + interval_seconds
    run_count := 0
    error_count := 0 }

/-- `ScheduledTask.should_run`. -/
def ScheduledTask.should_run (t : ScheduledTask) (now : Nat) : Bool :=
  t.next_run ≤ now

/-- `ScheduledTask.run`.  The callback is modelled by its outcome: `ok` when it
returns, `error msg` when it raises; the `except` branch of the source catches
the exception here, so `run` is total. -/
def ScheduledTask.run (t : ScheduledTask) (now : Nat) (outcome : Except String Unit) :
    ScheduledTask × Bool :=
  match outcome with
  | Except.ok _ =>
      ({ t with last_run := some now
                next_run := now + t.interval_seconds
                run_count := t.run_count + 1 }, true)
  | Except.error _ =>
      ({ t with error_count := t.error_count + 1
                next_run := now + t.interval_seconds }, false)

/-- One iteration of the `for task in self.tasks` loop in
`Scheduler._run_loop`: every due job runs, each with its own callback
outcome. -/
def scheduler_tick (now : Nat) (outcomes : String → Except String Unit)
    (tasks : List ScheduledTask) : List ScheduledTask :=
  tasks.map (fun t => if t.should_run now then (t.run now (outcomes t.name)).1 else t)

/-! ## Claim C9 -/

/-- C9: after each invocation the job's `next_run` is `now + interval`
regardless of outcome; a raising callback only increments `error_count`
(caught, never propagated); and in a tick every due job — in particular job
`i` — is updated to exactly its own `run` result, whatever any other job's
callback did. -/
theorem C9_scheduler_isolation (now : Nat) (outcomes : String → Except String Unit)
    (tasks : List ScheduledTask) (i : Nat) (hi : i < tasks.length) :
    (tasks[i].run now (outcomes tasks[i].name)).1.next_run
        = now + tasks[i].interval_seconds ∧
      (∀ e, outcomes tasks[i].name = Except.error e →
        (tasks[i].run now (outcomes tasks[i].name)).1.error_count
          = tasks[i].error_count + 1) ∧
      (scheduler_tick now outcomes tasks).length = tasks.length ∧
      (tasks[i].should_run now = true →
        (scheduler_tick now outcomes tasks)[i]? =
          some (tasks[i].run now (outcomes tasks[i].name)).1) := by
  refine ⟨?_, ?_, ?_, ?_⟩
  · cases houtcome : outcomes tasks[i].name <;> simp [houtcome, ScheduledTask.run]
  · intro e he
    rw [he]
    simp [ScheduledTask.run]
  · simp [scheduler_tick]
  · intro hdue
    simp [scheduler_tick, List.getElem?_map, List.getElem?_eq_getElem hi, hdue]

/-- C9 witness: with two due jobs where the first callback raises, the first
job's `next_run` advances by its interval and its error is counted, and the
second job still runs. -/
theorem C9_witness :
    ((⟨"a", 10, none, 0, 0, 0⟩ : ScheduledTask).run 5
        (Except.error "boom")).1.next_run = 5 + 10 ∧
      (scheduler_tick 5 (fun n => if n = "a" then Except.error "boom" else Except.ok ())
          [⟨"a", 10, none, 0, 0, 0⟩, ⟨"b", 7, none, 0, 0, 0⟩])[1]? =
        some ((⟨"b", 7, none, 0, 0, 0⟩ : ScheduledTask).run 5 (Except.ok ())).1 := by
  constructor
  · exact (C9_scheduler_isolation 5 (fun _ => Except.error "boom")
      [⟨"a", 10, none, 0, 0, 0⟩] 0 (by decide)).1
  · have h := (C9_scheduler_isolation 5
      (fun n => if n = "a" then Except.error "boom" else Except.ok ())
      [⟨"a", 10, none, 0, 0, 0⟩, ⟨"b", 7, none, 0, 0, 0⟩] 1 (by decide)).2.2.2
    simpa using h (by decide)

/-! ## `src/orchestrator/ralph_loop.py` — the multi-step runner -/

/-- `TaskStep` dataclass; the optional result payload dict is modelled as a
metadata map. -/
structure TaskStep where
  name : String
  action : String
  requires_approval : Bool
  status : String
  result : Option Metadata
deriving DecidableEq, Repr

/-- `MultiStepTask` dataclass. -/
structure MultiStepTask where
  id : String
  title : String
  steps : List TaskStep
  current_step : Nat
  status : String
  created : String
  updated : String
deriving DecidableEq, Repr

/-- `MultiStepTask.__post_init__`: empty timestamps get the current instant. -/
def post_init (t : MultiStepTask) (nowIso : String) : MultiStepTask :=
  { t with created := if t.created = "" then nowIso else t.created
           updated := if t.updated = "" then nowIso else t.updated }

/-- `MultiStepTask.current_step_obj`. -/
def current_step_obj (t : MultiStepTask) : Option TaskStep :=
  if h : t.current_step < t.steps.length then some (t.steps.get ⟨t.current_step, h⟩)
  else none

/-- A step-descriptor dict handed to `create_task`: required `name`, optional
`action` and `requires_approval`. -/
structure StepSpec where
  name : String
  action : Option String
  requires_approval : Option Bool
deriving DecidableEq, Repr

/-- Construction of one `TaskStep` inside `create_task`, with the source's
`dict.get` defaults. -/
def mkTaskStep (s : StepSpec) : TaskStep :=
  { name := s.name
    action := s.action.getD "general"
    requires_approval := s.requires_approval.getD false
    status := "pending"
    result := none }

/-- `RalphWiggumLoop.create_task`; the generated timestamp/uuid id and the
creation instant are parameters. -/
def create_task (task_id : String) (nowIso : String) (title : String)
    (specs : List StepSpec) : MultiStepTask :=
  post_init
    { id := task_id
      title := title
      steps := specs.map mkTaskStep
      current_step := 0
      status := "pending"
      created := ""
      updated := "" } nowIso

/-- The status assigned by `advance` when moving on to step `next_index`:
`paused` when that step requires approval, `in_progress` otherwise.  The
`none` fallback is unreachable because `next_index < len(steps)` holds at the
call site. -/
def next_status (steps1 : List TaskStep) (next_index : Nat) : String :=
  match steps1[next_index]? with
  | some ns => if ns.requires_approval then "paused" else "in_progress"
  | none => "in_progress"

/-- `RalphWiggumLoop.advance(task_id, step_result)` acting on the addressed
task: marks the current step completed, then either completes the task or
moves to the next step.  Returns the new task and the Python return value. -/
def advance (t : MultiStepTask) (step_result : Option Metadata) (nowIso : String) :
    MultiStepTask × Bool :=
  match current_step_obj t with
  | none => (t, false)
  | some cur =>
      let steps1 := t.steps.set t.current_step
        { cur with status := "completed", result := step_result }
      let t1 := { t with steps := steps1, updated := nowIso }
      let next_index := t.current_step + 1
      if t.steps.length ≤ next_index then
        ({ t1 with status := "completed", current_step := next_index }, false)
      else
        ({ t1 with current_step := next_index, status := next_status steps1 next_index }, true)

/-- The post-advance status of a task that still has steps left is never
`completed`. -/
theorem next_status_ne_completed (steps1 : List TaskStep) (next_index : Nat) :
    next_status steps1 next_index ≠ "completed" := by
  unfold next_status
  cases steps1[next_index]? with
  | none => decide
  | some ns => cases hra : ns.requires_approval <;> simp [hra]

/-- A task taken through `create_task` and then any sequence of `advance`
calls (each with its own step result and instant). -/
def advances (t : MultiStepTask) (calls : List (Option Metadata × String)) : MultiStepTask :=
  calls.foldl (fun acc c => (advance acc c.1 c.2).1) t

/-! ## Claim C6 -/

/-- The completion invariant claimed by the spec. -/
def completion_inv (t : MultiStepTask) : Prop :=
  t.status = "completed" ↔ t.current_step = t.steps.length

/-- A `some` result of `current_step_obj` witnesses an in-range index. -/
theorem current_step_obj_lt (t : MultiStepTask) (cur : TaskStep)
    (h : current_step_obj t = some cur) : t.current_step < t.steps.length := by
  unfold current_step_obj at h
  split at h
  · assumption
  · cases h

/-- `advance` preserves the completion invariant. -/
theorem advance_preserves_inv (t : MultiStepTask) (r : Option Metadata) (nowIso : String)
    (h : completion_inv t) : completion_inv (advance t r nowIso).1 := by
  unfold advance
  cases hobj : current_step_obj t with
  | none => exact h
  | some cur =>
    have hlt : t.current_step < t.steps.length := current_step_obj_lt t cur hobj
    by_cases hend : t.steps.length ≤ t.current_step + 1
    · have heq : t.current_step + 1 = t.steps.length := le_antisymm hlt hend
      simp only [hend, if_true]
      unfold completion_inv
      simp [List.length_set, heq]
    · simp only [hend, if_false]
      unfold completion_inv
      have hne : ¬(t.current_step + 1 = (t.steps.set t.current_step
          { cur with status := "completed", result := r }).length) := by
        rw [List.length_set]
        omega
      constructor
      · intro hst
        exact absurd hst (next_status_ne_completed _ _)
      · intro hst
        exact absurd hst hne

/-- Any sequence of `advance` calls preserves the completion invariant. -/
theorem advances_preserves_inv (calls : List (Option Metadata × String))
    (t : MultiStepTask) (h : completion_inv t) : completion_inv (advances t calls) := by
  induction calls generalizing t with
  | nil => exact h
  | cons c rest ih => exact ih _ (advance_preserves_inv _ _ _ h)

/-- C6 counterexample: the claim fails as stated for the empty step list.  A
task created with no steps has `current_step == len(steps) == 0` at creation,
yet its status is `pending`, never `completed`. -/
theorem C6_counterexample :
    (create_task "ms_1" "2025-01-01T00:00:00" "Empty task" []).current_step =
        (create_task "ms_1" "2025-01-01T00:00:00" "Empty task" []).steps.length ∧
      (create_task "ms_1" "2025-01-01T00:00:00" "Empty task" []).status ≠ "completed" := by
  constructor
  · rfl
  · decide

/-- C6 (amended): for every task created by `create_task` from a nonempty
step-descriptor list and taken through any sequence of `advance` calls, the
status is `completed` iff `current_step == len(steps)`. -/
theorem C6_completed_iff (task_id nowIso title : String) (specs : List StepSpec)
    (hne : specs ≠ []) (calls : List (Option Metadata × String)) :
    (advances (create_task task_id nowIso title specs) calls).status = "completed" ↔
      (advances (create_task task_id nowIso title specs) calls).current_step =
        (advances (create_task task_id nowIso title specs) calls).steps.length := by
  apply advances_preserves_inv
  unfold completion_inv
  have h1 : (create_task task_id nowIso title specs).status = "pending" := rfl
  have h2 : (create_task task_id nowIso title specs).current_step = 0 := rfl
  have h3 : (create_task task_id nowIso title specs).steps.length = specs.length := by
    simp [create_task, post_init]
  rw [h1, h2, h3]
  constructor
  · intro hst
    exact absurd hst (by decide)
  · intro hlen
    exact absurd (List.length_eq_zero.mp hlen.symm) hne

/-- C6 witness: a one-step task just after creation — not yet completed,
`current_step = 0 ≠ 1 = len(steps)`. -/
theorem C6_witness :
    (advances (create_task "ms_2" "2025-01-01T00:00:00" "One step"
        [⟨"draft", none, none⟩]) []).status = "completed" ↔
      (advances (create_task "ms_2" "2025-01-01T00:00:00" "One step"
          [⟨"draft", none, none⟩]) []).current_step =
        (advances (create_task "ms_2" "2025-01-01T00:00:00" "One step"
            [⟨"draft", none, none⟩]) []).steps.length :=
  C6_completed_iff "ms_2" "2025-01-01T00:00:00" "One step" [⟨"draft", none, none⟩]
    (by decide) []

/-! ## Claim C7 -/

/-- The dict produced by `TaskStep.to_dict`; optional fields model the
`dict.get` defaults applied by `TaskStep.from_dict`. -/
structure StepDict where
  name : String
  action : String
  requires_approval : Option Bool
  status : Option String
  result : Option (Option Metadata)
deriving DecidableEq, Repr

/-- `TaskStep.to_dict`. -/
def TaskStep.to_dict (s : TaskStep) : StepDict :=
  { name := s.name
    action := s.action
    requires_approval := some s.requires_approval
    status := some s.status
    result := some s.result }

/-- `TaskStep.from_dict`. -/
def TaskStep.from_dict (d : StepDict) : TaskStep :=
  { name := d.name
    action := d.action
    requires_approval := d.requires_approval.getD false
    status := d.status.getD "pending"
    result := d.result.getD none }

/-- The dict produced by `MultiStepTask.to_dict`. -/
structure TaskDict where
  id : String
  title : String
  steps : Option (List StepDict)
  current_step : Option Nat
  status : Option String
  created : Option String
  updated : Option String
deriving DecidableEq, Repr

/-- `MultiStepTask.to_dict`. -/
def MultiStepTask.to_dict (t : MultiStepTask) : TaskDict :=
  { id := t.id
    title := t.title
    steps := some (t.steps.map TaskStep.to_dict)
    current_step := some t.current_step
    status := some t.status
    created := some t.created
    updated := some t.updated }

/-- `MultiStepTask.from_dict` (the dataclass constructor re-runs
`__post_init__`). -/
def MultiStepTask.from_dict (d : TaskDict) (nowIso : String) : MultiStepTask :=
  post_init
    { id := d.id
      title := d.title
      steps := (d.steps.getD []).map TaskStep.from_dict
      current_step := d.current_step.getD 0
      status := d.status.getD "pending"
      created := d.created.getD ""
      updated := d.updated.getD "" } nowIso

/-- `RalphWiggumLoop._persist_state` writes `task.to_dict()` to the task's
state file; `yaml.dump`/`yaml.safe_load` round-trip this dict of strings,
bools, naturals and nested lists, so the persisted record is modelled by the
dict itself. -/
def persist_state (t : MultiStepTask) : TaskDict :=
  MultiStepTask.to_dict t

/-- The per-file body of `RalphWiggumLoop.resume_all`: parse the persisted
record and reload it only when its status is non-terminal. -/
def resume_record (d : TaskDict) (nowIso : String) : Option MultiStepTask :=
  let task := MultiStepTask.from_dict d nowIso
  if task.status = "pending" ∨ task.status = "in_progress" ∨ task.status = "paused" then
    some task
  else none

/-- A step survives the dict round-trip unchanged. -/
theorem step_roundtrip (s : TaskStep) : TaskStep.from_dict (TaskStep.to_dict s) = s := rfl

/-- C7: persisting a `pending`/`in_progress`/`paused` task and reloading it
via the resume scan yields it back with identical `current_step`, identical
overall status, and identical per-step status values; a persisted
`completed` or `failed` task is not reloaded into the active set. -/
theorem C7_roundtrip (t : MultiStepTask) (nowIso : String) :
    ((t.status = "pending" ∨ t.status = "in_progress" ∨ t.status = "paused") →
      resume_record (persist_state t) nowIso =
          some (MultiStepTask.from_dict (MultiStepTask.to_dict t) nowIso) ∧
        (MultiStepTask.from_dict (MultiStepTask.to_dict t) nowIso).current_step =
          t.current_step ∧
        (MultiStepTask.from_dict (MultiStepTask.to_dict t) nowIso).status = t.status ∧
        (MultiStepTask.from_dict (MultiStepTask.to_dict t) nowIso).steps.map
            TaskStep.status = t.steps.map TaskStep.status) ∧
      ((t.status = "completed" ∨ t.status = "failed") →
        resume_record (persist_state t) nowIso = none) := by
  have hstatus : (MultiStepTask.from_dict (MultiStepTask.to_dict t) nowIso).status
      = t.status := rfl
  have hsteps : (MultiStepTask.from_dict (MultiStepTask.to_dict t) nowIso).steps
      = t.steps := by
    show (t.steps.map TaskStep.to_dict).map TaskStep.from_dict = t.steps
    rw [List.map_map]
    have hcomp : TaskStep.from_dict ∘ TaskStep.to_dict = id := funext step_roundtrip
    rw [hcomp, List.map_id]
  constructor
  · intro h
    refine ⟨?_, rfl, hstatus, by rw [hsteps]⟩
    unfold resume_record persist_state
    rw [if_pos]
    rw [hstatus]
    exact h
  · intro h
    unfold resume_record persist_state
    rw [if_neg]
    rw [hstatus]
    rcases h with h | h <;> rw [h] <;> decide

/-- C7 witness: a two-step `paused` task round-trips with its `current_step`,
status and per-step statuses intact. -/
theorem C7_witness :
    resume_record (persist_state
        ⟨"ms_3", "T", [⟨"a", "general", false, "completed", none⟩,
          ⟨"b", "general", true, "pending", none⟩], 1, "paused", "c", "u"⟩) "now" =
      some (MultiStepTask.from_dict (MultiStepTask.to_dict
        ⟨"ms_3", "T", [⟨"a", "general", false, "completed", none⟩,
          ⟨"b", "general", true, "pending", none⟩], 1, "paused", "c", "u"⟩) "now") ∧
    (MultiStepTask.from_dict (MultiStepTask.to_dict
        ⟨"ms_3", "T", [⟨"a", "general", false, "completed", none⟩,
          ⟨"b", "general", true, "pending", none⟩], 1, "paused", "c", "u"⟩) "now").current_step
      = 1 :=
  ⟨((C7_roundtrip ⟨"ms_3", "T", [⟨"a", "general", false, "completed", none⟩,
      ⟨"b", "general", true, "pending", none⟩], 1, "paused", "c", "u"⟩ "now").1
      (by decide)).1,
   ((C7_roundtrip ⟨"ms_3", "T", [⟨"a", "general", false, "completed", none⟩,
      ⟨"b", "general", true, "pending", none⟩], 1, "paused", "c", "u"⟩ "now").1
      (by decide)).2.1⟩

/-! ## `src/orchestrator/watchdog.py` — the watchdog monitor -/

/-- Watchdog bookkeeping for one supervised watcher: its `_restart_counts`
entry, the alert filenames written into `Pending_Approval`, the number of its
`_restart_history` entries, and the audit events emitted. -/
structure WatchdogState where
  restart_count : Nat
  alerts : List String
  history : Nat
  audit : List String
deriving DecidableEq, Repr

/-- `WatchdogMonitor.max_restart_attempts`. -/
def max_restart_attempts : Nat := 3

/-- The alert filename written by `_alert_human` at timestamp `ts` for the
(space-sanitized) watcher name `wname`. -/
def alert_filename (wname ts : String) : String :=
  ts ++ "_ALERT_" ++ wname ++ ".md"

/-- `WatchdogMonitor._alert_human`: writes an alert file into
`Pending_Approval` (`write_text` silently replaces the file on a name
collision) and logs a `watchdog_alert` audit event. -/
def alert_human (wname ts : String) (s : WatchdogState) : WatchdogState :=
  { s with
    alerts :=
      if alert_filename wname ts ∈ s.alerts then s.alerts
      else s.alerts ++ [alert_filename wname ts]
    audit := s.audit ++ ["watchdog_alert"] }

/-- `WatchdogMonitor._restart_watcher` for a watcher that stays down: every
restart attempt fails (either `start()` raises, or the watcher does not
report running afterwards so the counter is not reset — in both source
branches the per-watcher count and the history grow by one). -/
def restart_watcher_failing (wname ts : String) (s : WatchdogState) : WatchdogState :=
  if max_restart_attempts ≤ s.restart_count then
    alert_human wname ts s
  else
    { s with restart_count := s.restart_count + 1
             history := s.history + 1
             audit := s.audit ++ ["watchdog_restart"] }

/-- A run of consecutive health-check cycles (`_check_health` →
`_restart_watcher`) that all observe the watcher down, one timestamp per
cycle. -/
def watchdog_cycles (wname : String) (tss : List String) (s : WatchdogState) : WatchdogState :=
  tss.foldl (fun acc ts => restart_watcher_failing wname ts acc) s

/-- The initial watchdog bookkeeping (`_restart_counts` empty means count 0). -/
def watchdog_start : WatchdogState := ⟨0, [], 0, []⟩

/-! ## Claim C5 -/

/-- Appending one string is injective on the left argument. -/
theorem append_left_cancel_str (a b c : String) (h : a ++ c = b ++ c) : a = b := by
  have hd := congrArg String.data h
  simp only [String.data_append] at hd
  exact String.ext (List.append_cancel_right hd)

/-- Exact characterization of a down-watcher run from a fresh start: the
restart counter and history stop at 3, and one alert file is written per
cycle from the fourth on. -/
theorem watchdog_cycles_spec (wname : String) (tss : List String) (hnd : tss.Nodup) :
    (watchdog_cycles wname tss watchdog_start).restart_count = min tss.length 3 ∧
      (watchdog_cycles wname tss watchdog_start).history = min tss.length 3 ∧
      (watchdog_cycles wname tss watchdog_start).alerts =
        (tss.drop 3).map (fun ts => alert_filename wname ts) := by
  induction tss using List.reverseRecOn with
  | nil => simp [watchdog_cycles, watchdog_start]
  | append_singleton l t ih =>
    rw [List.nodup_append] at hnd
    have hl : l.Nodup := hnd.1
    have htl : t ∉ l := fun hm => hnd.2.2 hm (List.mem_singleton_self t)
    obtain ⟨ihc, ihh, iha⟩ := ih hl
    have hstep : watchdog_cycles wname (l ++ [t]) watchdog_start =
        restart_watcher_failing wname t (watchdog_cycles wname l watchdog_start) := by
      unfold watchdog_cycles
      rw [List.foldl_append]
      rfl
    by_cases hlen : 3 ≤ l.length
    · have hc3 : (watchdog_cycles wname l watchdog_start).restart_count = 3 := by
        rw [ihc]; omega
      have hnotin : alert_filename wname t ∉ (watchdog_cycles wname l watchdog_start).alerts := by
        rw [iha]
        intro hmem
        obtain ⟨ts, hts, heq⟩ := List.mem_map.mp hmem
        have : ts = t := by
          have h1 : ts ++ ("_ALERT_" ++ wname ++ ".md") = t ++ ("_ALERT_" ++ wname ++ ".md") := by
            unfold alert_filename at heq
            simpa [String.append_assoc] using heq
          exact append_left_cancel_str ts t _ h1
        exact htl (this ▸ List.mem_of_mem_drop hts)
      rw [hstep]
      unfold restart_watcher_failing
      rw [if_pos (by rw [hc3]; exact le_refl 3)]
      unfold alert_human
      refine ⟨?_, ?_, ?_⟩
      · simpa [hc3] using by omega
      · simpa [ihh] using by omega
      · rw [if_neg hnotin, iha, List.drop_append_of_le_length hlen, List.map_append]
        simp
    · have hc : (watchdog_cycles wname l watchdog_start).restart_count = l.length := by
        rw [ihc]; omega
      rw [hstep]
      unfold restart_watcher_failing
      rw [if_neg (by rw [hc]; unfold max_restart_attempts; omega)]
      refine ⟨?_, ?_, ?_⟩
      · simp only [hc]
        simp only [List.length_append, List.length_singleton]
        omega
      · simp only [ihh]
        simp only [List.length_append, List.length_singleton]
        omega
      · have hdrop : (l ++ [t]).drop 3 = [] := by
          apply List.drop_eq_nil_of_le
          simp only [List.length_append, List.length_singleton]
          omega
        have hdropl : l.drop 3 = [] := List.drop_eq_nil_of_le (by omega)
        rw [hdrop, iha, hdropl]

/-- C5 counterexample: the claim fails as stated.  After five consecutive
down cycles the watchdog has made exactly 3 restart attempts (consistent with
the bounded-retry part) but has written TWO alert artifacts — one per cycle
beyond the third — not exactly one. -/
theorem C5_counterexample :
    (watchdog_cycles "Gmail_Watcher" ["t1", "t2", "t3", "t4", "t5"]
        watchdog_start).history = 3 ∧
      (watchdog_cycles "Gmail_Watcher" ["t1", "t2", "t3", "t4", "t5"]
          watchdog_start).alerts.length = 2 := by
  constructor
  · decide
  · decide

/-- C5 (amended): over any run of health-check cycles observing the watcher
down (distinct cycle timestamps), the number of restart attempts is
`min cycles 3` — so no restart is attempted past the third — and one alert
artifact exists per cycle beyond the third, i.e. `cycles - 3` alert files
rather than exactly one. -/
theorem C5_bounded_restarts (wname : String) (tss : List String) (hnd : tss.Nodup) :
    (watchdog_cycles wname tss watchdog_start).history = min tss.length 3 ∧
      (watchdog_cycles wname tss watchdog_start).alerts.length = tss.length - 3 := by
  obtain ⟨_, hh, ha⟩ := watchdog_cycles_spec wname tss hnd
  refine ⟨hh, ?_⟩
  rw [ha, List.length_map, List.length_drop]

/-- C5 witness: five distinct-timestamp cycles give 3 = min 5 3 attempts and
5 - 3 = 2 alert files. -/
theorem C5_witness :
    (watchdog_cycles "w" ["t1", "t2", "t3", "t4", "t5"] watchdog_start).history =
        min 5 3 ∧
      (watchdog_cycles "w" ["t1", "t2", "t3", "t4", "t5"] watchdog_start).alerts.length =
        5 - 3 :=
  C5_bounded_restarts "w" ["t1", "t2", "t3", "t4", "t5"] (by decide)

/-! ## `src/workflow/approval_handler.py` — the approval handler -/

/-- `ApprovalHandler` state: the `Approved` and `Done` folders (file names;
`Done` names carry their timestamp prefix), the in-memory
`processed_approvals` set, and the audit events emitted so far. -/
structure AHState where
  approved : List String
  done : List String
  processed : List String
  audit : List String
deriving DecidableEq, Repr

/-- Python `set.add` on the insertion-ordered list model of a set. -/
def setAdd (l : List String) (x : String) : List String :=
  if x ∈ l then l else l ++ [x]

/-- Does `l` end with the character sequence `suff`? -/
def endsWithSeq (suff l : List Char) : Bool :=
  startsWithSeq suff.reverse l.reverse

/-- A member of the `*.md` glob. -/
def mdFile (n : String) : Bool :=
  endsWithSeq ".md".toList n.toList

/-- Python `Path.stem` for a `.md` filename. -/
def stemOf (n : String) : String :=
  n.dropRight 3

/-- The suffix of `l` after the first occurrence of `pat`, when `pat`
occurs. -/
def dropAfterFirst (pat : List Char) : List Char → Option (List Char)
  | [] => if pat.isEmpty then some [] else none
  | c :: t =>
      if startsWithSeq pat (c :: t) then some (List.drop pat.length (c :: t))
      else dropAfterFirst pat t

/-- Does `name` match the glob `*_plan_*{stem}*.md` used to find a task's
companion plan file?  (Earliest-occurrence matching is complete for this
pattern, because each later sub-pattern only needs a suffix of the rest.) -/
def planMatches (stem name : String) : Bool :=
  match dropAfterFirst "_plan_".toList name.toList with
  | none => false
  | some r1 =>
      match dropAfterFirst stem.toList r1 with
      | none => false
      | some r2 => endsWithSeq ".md".toList r2

/-- `ApprovalHandler.scan_approved`: the `Approved/*.md` entries that are not
plan files and have not been marked processed in this handler's lifetime. -/
def scan_approved (s : AHState) : List String :=
  s.approved.filter
    (fun n => mdFile n && !inStr "_plan_" n.toList && !decide (n ∈ s.processed))

/-- One successful `shutil.move` of a file out of `Approved` into `Done`
under its timestamp-prefixed name. -/
def moveEntry (ts : String) (s : AHState) (name : String) : AHState :=
  { s with approved := s.approved.erase name
           done := s.done ++ [ts ++ "_completed_" ++ name] }

/-- The plan-relocation loop inside `_move_to_done`; each `shutil.move` may
fail, and a failure raises out of the loop with all earlier mutations kept. -/
def movePlans (moveFails : String → Bool) (ts : String) :
    List String → AHState → AHState × Bool
  | [], s => (s, true)
  | p :: rest, s =>
      if moveFails p then (s, false)
      else movePlans moveFails ts rest (moveEntry ts s p)

/-- The tail of `_move_to_done`: the `task_completed` audit event is emitted
only when every relocation succeeded. -/
def finish_move (r : AHState × Bool) : AHState × Bool :=
  if r.2 then ({ r.1 with audit := r.1.audit ++ ["task_completed"] }, true) else r

/-- `ApprovalHandler._move_to_done`: relocate the task file (then its
companion plan files) into `Done`; `moveFails` is the I/O fault environment
(`true` = this `shutil.move` raises; mutations made before the raise
persist). -/
def move_to_done (moveFails : String → Bool) (ts : String) (s : AHState)
    (name : String) : AHState × Bool :=
  if moveFails name then (s, false)
  else
    finish_move (movePlans moveFails ts
      ((moveEntry ts s name).approved.filter (fun p => planMatches (stemOf name) p))
      (moveEntry ts s name))

/-- The pre-relocation mutations of `_process_approved_task`: the name is
added to `processed_approvals` and the `task_approved` audit event emitted
BEFORE the move. -/
def mark_processed (s : AHState) (name : String) : AHState :=
  { s with processed := setAdd s.processed name
           audit := s.audit ++ ["task_approved"] }

/-- `ApprovalHandler._process_approved_task`; the `on_approved` callback's
exceptions are caught internally and do not touch this state. -/
def process_approved_task (moveFails : String → Bool) (ts : String) (s : AHState)
    (name : String) : AHState × Bool :=
  move_to_done moveFails ts (mark_processed s name) name

/-- The `except` clause of `process_approvals`: a raise is caught and logged
as an `approval_process_error` audit event; only successes are counted. -/
def log_step_error (r : AHState × Bool) (count : Nat) : AHState × Nat :=
  if r.2 then (r.1, count + 1)
  else ({ r.1 with audit := r.1.audit ++ ["approval_process_error"] }, count)

/-- The `for`/`try` body of `ApprovalHandler.process_approvals`. -/
def process_approvals_step (moveFails : String → Bool) (ts : String)
    (acc : AHState × Nat) (name : String) : AHState × Nat :=
  log_step_error (process_approved_task moveFails ts acc.1 name) acc.2

/-- `ApprovalHandler.process_approvals`. -/
def process_approvals (moveFails : String → Bool) (ts : String) (s : AHState) :
    AHState × Nat :=
  (scan_approved s).foldl (process_approvals_step moveFails ts) (s, 0)

/-! ## Claim C3 -/

/-- `setAdd` keeps old members. -/
theorem setAdd_mem (l : List String) (x y : String) (h : y ∈ l) : y ∈ setAdd l x := by
  unfold setAdd
  split
  · exact h
  · exact List.mem_append_left _ h

/-- `setAdd` contains the added element. -/
theorem setAdd_mem_self (l : List String) (x : String) : x ∈ setAdd l x := by
  unfold setAdd
  split
  · assumption
  · exact List.mem_append_right _ (List.mem_singleton_self x)

/-- A successful `dropAfterFirst` witnesses an occurrence of the pattern. -/
theorem dropAfterFirst_hasSub (pat : List Char) : ∀ l r : List Char,
    dropAfterFirst pat l = some r → hasSub pat l = true := by
  intro l
  induction l with
  | nil =>
    intro r h
    unfold dropAfterFirst at h
    unfold hasSub
    by_cases hp : pat.isEmpty = true
    · exact hp
    · rw [if_neg hp] at h; cases h
  | cons c t ih =>
    intro r h
    unfold dropAfterFirst at h
    unfold hasSub
    by_cases hs : startsWithSeq pat (c :: t) = true
    · simp [hs]
    · rw [if_neg hs] at h
      simp [ih r h]

/-- A plan-glob match contains `_plan_`. -/
theorem planMatches_hasSub (stem name : String) (h : planMatches stem name = true) :
    inStr "_plan_" name.toList = true := by
  unfold planMatches at h
  cases hd : dropAfterFirst "_plan_".toList name.toList with
  | none => rw [hd] at h; cases h
  | some r1 => exact dropAfterFirst_hasSub _ _ _ hd

/-- `movePlans` never touches `processed`. -/
theorem movePlans_processed (mf : String → Bool) (ts : String) :
    ∀ ps : List String, ∀ s : AHState, (movePlans mf ts ps s).1.processed = s.processed := by
  intro ps
  induction ps with
  | nil => intro s; rfl
  | cons p rest ih =>
    intro s
    unfold movePlans
    split
    · rfl
    · exact ih _

/-- `movePlans` never touches `audit`. -/
theorem movePlans_audit (mf : String → Bool) (ts : String) :
    ∀ ps : List String, ∀ s : AHState, (movePlans mf ts ps s).1.audit = s.audit := by
  intro ps
  induction ps with
  | nil => intro s; rfl
  | cons p rest ih =>
    intro s
    unfold movePlans
    split
    · rfl
    · exact ih _

/-- A file distinct from every moved plan survives `movePlans` in
`Approved`. -/
theorem movePlans_approved_mem (mf : String → Bool) (ts : String) (n : String) :
    ∀ ps : List String, ∀ s : AHState, (∀ p ∈ ps, p ≠ n) → n ∈ s.approved →
      n ∈ (movePlans mf ts ps s).1.approved := by
  intro ps
  induction ps with
  | nil => intro s _ h; exact h
  | cons p rest ih =>
    intro s hne h
    unfold movePlans
    split
    · exact h
    · refine ih _ (fun q hq => hne q (List.mem_cons_of_mem p hq)) ?_
      exact (List.mem_erase_of_ne
        (Ne.symm (hne p (List.mem_cons_self p rest)))).mpr h

/-- `finish_move` never touches `processed`. -/
theorem finish_move_processed (r : AHState × Bool) :
    (finish_move r).1.processed = r.1.processed := by
  unfold finish_move
  split <;> rfl

/-- `finish_move` never touches `approved`. -/
theorem finish_move_approved (r : AHState × Bool) :
    (finish_move r).1.approved = r.1.approved := by
  unfold finish_move
  split <;> rfl

/-- `finish_move` only appends to `audit`. -/
theorem finish_move_audit_mem (r : AHState × Bool) (e : String) (h : e ∈ r.1.audit) :
    e ∈ (finish_move r).1.audit := by
  unfold finish_move
  split
  · exact List.mem_append_left _ h
  · exact h

/-- `move_to_done` never touches `processed`. -/
theorem move_to_done_processed (mf : String → Bool) (ts : String) (s : AHState)
    (nm : String) : (move_to_done mf ts s nm).1.processed = s.processed := by
  unfold move_to_done
  split
  · rfl
  · rw [finish_move_processed, movePlans_processed]
    rfl

/-- `move_to_done` only appends to `audit`. -/
theorem move_to_done_audit_mem (mf : String → Bool) (ts : String) (s : AHState)
    (nm e : String) (h : e ∈ s.audit) : e ∈ (move_to_done mf ts s nm).1.audit := by
  unfold move_to_done
  split
  · exact h
  · apply finish_move_audit_mem
    rw [movePlans_audit]
    exact h

/-- A non-plan file distinct from the relocated task survives `move_to_done`
in `Approved`. -/
theorem move_to_done_approved_mem (mf : String → Bool) (ts : String) (s : AHState)
    (nm n : String) (hplan : inStr "_plan_" n.toList = false) (hne : nm ≠ n)
    (h : n ∈ s.approved) : n ∈ (move_to_done mf ts s nm).1.approved := by
  unfold move_to_done
  split
  · exact h
  · rw [finish_move_approved]
    apply movePlans_approved_mem
    · intro p hp hpn
      have hpm := (List.mem_filter.mp hp).2
      rw [hpn] at hpm
      have h1 : inStr "_plan_" n.toList = true := planMatches_hasSub _ _ hpm
      rw [hplan] at h1
      exact Bool.noConfusion h1
    · exact (List.mem_erase_of_ne (Ne.symm hne)).mpr h

/-- A failing task move returns the state unchanged. -/
theorem move_to_done_fail (mf : String → Bool) (ts : String) (s : AHState)
    (nm : String) (hfail : mf nm = true) : move_to_done mf ts s nm = (s, false) := by
  unfold move_to_done
  rw [if_pos hfail]

/-- `log_step_error` never touches `processed`. -/
theorem log_processed (r : AHState × Bool) (c : Nat) :
    (log_step_error r c).1.processed = r.1.processed := by
  unfold log_step_error
  split <;> rfl

/-- `log_step_error` never touches `approved`. -/
theorem log_approved (r : AHState × Bool) (c : Nat) :
    (log_step_error r c).1.approved = r.1.approved := by
  unfold log_step_error
  split <;> rfl

/-- `log_step_error` only appends to `audit`. -/
theorem log_audit_mem (r : AHState × Bool) (c : Nat) (e : String) (h : e ∈ r.1.audit) :
    e ∈ (log_step_error r c).1.audit := by
  unfold log_step_error
  split
  · exact h
  · exact List.mem_append_left _ h

/-- One loop iteration only grows `processed`. -/
theorem step_processed_mem (mf : String → Bool) (ts : String) (acc : AHState × Nat)
    (m y : String) (h : y ∈ acc.1.processed) :
    y ∈ (process_approvals_step mf ts acc m).1.processed := by
  unfold process_approvals_step process_approved_task
  rw [log_processed, move_to_done_processed]
  exact setAdd_mem _ _ _ h

/-- One loop iteration only appends to `audit`. -/
theorem step_audit_mem (mf : String → Bool) (ts : String) (acc : AHState × Nat)
    (m e : String) (h : e ∈ acc.1.audit) :
    e ∈ (process_approvals_step mf ts acc m).1.audit := by
  unfold process_approvals_step process_approved_task
  apply log_audit_mem
  apply move_to_done_audit_mem
  exact List.mem_append_left _ h

/-- A non-plan file whose own move fails survives any loop iteration in
`Approved`. -/
theorem step_approved_mem (mf : String → Bool) (ts : String) (acc : AHState × Nat)
    (m n : String) (hplan : inStr "_plan_" n.toList = false) (hfail : mf n = true)
    (h : n ∈ acc.1.approved) : n ∈ (process_approvals_step mf ts acc m).1.approved := by
  unfold process_approvals_step process_approved_task
  rw [log_approved]
  by_cases hm : m = n
  · subst hm
    rw [move_to_done_fail mf ts _ m hfail]
    exact h
  · exact move_to_done_approved_mem mf ts _ m n hplan hm h

/-- The invariant established once the failing task has been processed:
still in `Approved`, marked processed, error audited. -/
def C3inv (n : String) (st : AHState) : Prop :=
  n ∈ st.approved ∧ n ∈ st.processed ∧ "approval_process_error" ∈ st.audit

/-- Any loop iteration preserves the invariant. -/
theorem step_keeps_inv (mf : String → Bool) (ts : String) (acc : AHState × Nat)
    (m n : String) (hplan : inStr "_plan_" n.toList = false) (hfail : mf n = true)
    (h : C3inv n acc.1) : C3inv n (process_approvals_step mf ts acc m).1 :=
  ⟨step_approved_mem mf ts acc m n hplan hfail h.1,
   step_processed_mem mf ts acc m n h.2.1,
   step_audit_mem mf ts acc m _ h.2.2⟩

/-- Processing the failing task itself establishes the invariant. -/
theorem step_establishes_inv (mf : String → Bool) (ts : String) (acc : AHState × Nat)
    (n : String) (hfail : mf n = true) (h : n ∈ acc.1.approved) :
    C3inv n (process_approvals_step mf ts acc n).1 := by
  unfold process_approvals_step process_approved_task
  rw [move_to_done_fail mf ts _ n hfail]
  unfold log_step_error
  rw [if_neg Bool.false_ne_true]
  refine ⟨h, ?_, ?_⟩
  · exact setAdd_mem_self acc.1.processed n
  · exact List.mem_append_right _ (List.mem_singleton_self _)

/-- The loop preserves the invariant. -/
theorem fold_keeps_inv (mf : String → Bool) (ts : String) (n : String)
    (hplan : inStr "_plan_" n.toList = false) (hfail : mf n = true) :
    ∀ L : List String, ∀ acc : AHState × Nat, C3inv n acc.1 →
      C3inv n (L.foldl (process_approvals_step mf ts) acc).1 := by
  intro L
  induction L with
  | nil => intro acc h; exact h
  | cons m rest ih =>
    intro acc h
    exact ih _ (step_keeps_inv mf ts acc m n hplan hfail h)

/-- Once the failing task occurs in the scanned work list, the loop ends in
the invariant. -/
theorem fold_establishes_inv (mf : String → Bool) (ts : String) (n : String)
    (hplan : inStr "_plan_" n.toList = false) (hfail : mf n = true) :
    ∀ L : List String, ∀ acc : AHState × Nat, n ∈ L → n ∈ acc.1.approved →
      C3inv n (L.foldl (process_approvals_step mf ts) acc).1 := by
  intro L
  induction L with
  | nil => intro acc h; cases h
  | cons m rest ih =>
    intro acc hL h
    rcases List.mem_cons.mp hL with heq | hrest
    · subst heq
      exact fold_keeps_inv mf ts n hplan hfail rest _
        (step_establishes_inv mf ts acc n hfail h)
    · exact ih _ hrest (step_approved_mem mf ts acc m n hplan hfail h)

/-- C3 counterexample: the claim fails as stated.  With a single approved
task whose relocation raises, the error is caught and audited and the file
stays in `Approved` — but the next scan returns nothing (the name was added
to `processed_approvals` before the move), so the task is never retried. -/
theorem C3_counterexample :
    "approval_process_error" ∈
        (process_approvals (fun m => m == "task1.md") "20250101_000000"
          ⟨["task1.md"], [], [], []⟩).1.audit ∧
      "task1.md" ∈
        (process_approvals (fun m => m == "task1.md") "20250101_000000"
          ⟨["task1.md"], [], [], []⟩).1.approved ∧
      scan_approved
        (process_approvals (fun m => m == "task1.md") "20250101_000000"
          ⟨["task1.md"], [], [], []⟩).1 = [] := by
  refine ⟨?_, ?_, ?_⟩ <;> decide

/-- C3 (amended): when the relocation of an approved task raises, the error
is caught and logged as an `approval_process_error` audit event and the task
file remains in `Approved` — but it is NOT picked up again by later
`scan_approved`/`process_approvals` scans of the same handler instance,
because its name joins `processed_approvals` before the move; retry only
happens after a handler restart. -/
theorem C3_error_logged_no_retry (mf : String → Bool) (ts : String) (s : AHState)
    (n : String) (hmem : n ∈ s.approved) (hmd : mdFile n = true)
    (hplan : inStr "_plan_" n.toList = false) (hproc : n ∉ s.processed)
    (hfail : mf n = true) :
    "approval_process_error" ∈ (process_approvals mf ts s).1.audit ∧
      n ∈ (process_approvals mf ts s).1.approved ∧
      n ∉ scan_approved (process_approvals mf ts s).1 := by
  have hscan : n ∈ scan_approved s := by
    apply List.mem_filter.mpr
    refine ⟨hmem, ?_⟩
    have hplan2 : inStr "_plan_" n.data = false := hplan
    simp [hmd, hplan, hplan2, hproc]
  have hQ := fold_establishes_inv mf ts n hplan hfail (scan_approved s) (s, 0) hscan hmem
  refine ⟨hQ.2.2, hQ.1, ?_⟩
  intro hin
  have hpred := (List.mem_filter.mp hin).2
  simp only [Bool.and_eq_true, Bool.not_eq_true', decide_eq_false_iff_not] at hpred
  exact hpred.2 hQ.2.1

/-- C3 witness: the single failing approved task of the counterexample state,
via the general theorem. -/
theorem C3_witness :
    "approval_process_error" ∈
        (process_approvals (fun m => m == "task2.md") "ts"
          ⟨["task2.md"], [], [], []⟩).1.audit ∧
      "task2.md" ∈
        (process_approvals (fun m => m == "task2.md") "ts"
          ⟨["task2.md"], [], [], []⟩).1.approved ∧
      "task2.md" ∉ scan_approved
        (process_approvals (fun m => m == "task2.md") "ts"
          ⟨["task2.md"], [], [], []⟩).1 :=
  C3_error_logged_no_retry (fun m => m == "task2.md") "ts"
    ⟨["task2.md"], [], [], []⟩ "task2.md" (by decide) (by decide) (by decide)
    (by decide) (by decide)

/-! ## `src/workflow/task_processor.py` — the task processor -/

/-- A folder as an association list from filename to file content. -/
abbrev Folder := List (String × String)

/-- Reading the file at `k`, if it exists. -/
def lookupKey (k : String) : Folder → Option String
  | [] => none
  | kv :: t => if kv.1 = k then some kv.2 else lookupKey k t

/-- Writing a file at path `k` — and equally the destination effect of
`shutil.move`/`shutil.copy` to the full file path `k`: an existing entry is
silently replaced.  `shutil.move` to an existing *file* path never raises —
its destination-exists check fires only for directory destinations;
`os.rename` replaces atomically on POSIX and the `copy2`-then-unlink
fallback overwrites as well. -/
def setKey (k v : String) : Folder → Folder
  | [] => [(k, v)]
  | kv :: t => if kv.1 = k then (k, v) :: t else kv :: setKey k v t

/-- Removing a file (the source side of `shutil.move`). -/
def eraseKey (k : String) : Folder → Folder
  | [] => []
  | kv :: t => if kv.1 = k then t else kv :: eraseKey k t

/-- Task-processor state: the four folders it touches plus the audit trail. -/
structure TPState where
  needs_action : Folder
  plans : Folder
  pending : Folder
  approved : Folder
  audit : List String
deriving DecidableEq, Repr

/-- The part before the first occurrence of `sep` and the rest after it, when
`sep` (nonempty) occurs. -/
def splitOnceSeq (sep : List Char) : List Char → Option (List Char × List Char)
  | [] => none
  | c :: t =>
      if startsWithSeq sep (c :: t) then some ([], List.drop sep.length (c :: t))
      else
        match splitOnceSeq sep t with
        | some pr => some (c :: pr.1, pr.2)
        | none => none

/-- Python `content.split(sep, 2)`. -/
def split2 (sep : List Char) (l : List Char) : List (List Char) :=
  match splitOnceSeq sep l with
  | none => [l]
  | some pr =>
      match splitOnceSeq sep pr.2 with
      | none => [pr.1, pr.2]
      | some pr2 => [pr.1, pr2.1, pr2.2]

/-- Characters back to a string. -/
def strOfChars (l : List Char) : String := String.mk l

/-- Python `str.strip()`. -/
def pyStrip (s : String) : String :=
  strOfChars (((s.toList.dropWhile isWs).reverse.dropWhile isWs).reverse)

/-- `TaskProcessor._parse_task`, with `yaml.safe_load` abstracted as the
environment parameter `yamlParse`: `none` models a raised `YAMLError` (both
`metadata` and `body` then keep their initial values) and `some md` a
successful parse after the source's `or {}` normalization. -/
def parse_task (yamlParse : String → Option Metadata) (content : String) :
    Metadata × String :=
  let parts := split2 "---".toList content.toList
  if startsWithSeq "---".toList content.toList && decide (3 ≤ parts.length) then
    match yamlParse (strOfChars (parts.getD 1 [])) with
    | some md => (md, pyStrip (strOfChars (parts.getD 2 [])))
    | none => ([], content)
  else ([], content)

/-- The `.value` string of an `ActionType` member. -/
def ActionType.value : ActionType → String
  | ActionType.reply_email => "reply_email"
  | ActionType.send_email => "send_email"
  | ActionType.create_file => "create_file"
  | ActionType.delete_file => "delete_file"
  | ActionType.payment => "payment"
  | ActionType.social_post => "social_post"
  | ActionType.social_reply => "social_reply"
  | ActionType.schedule => "schedule"
  | ActionType.archive => "archive"
  | ActionType.information => "information"
  | ActionType.unknown => "unknown"

/-- The string form of a risk level. -/
def RiskLevel.value : RiskLevel → String
  | RiskLevel.low => "low"
  | RiskLevel.medium => "medium"
  | RiskLevel.high => "high"

/-- `risk_level.upper()`. -/
def RiskLevel.upperValue : RiskLevel → String
  | RiskLevel.low => "LOW"
  | RiskLevel.medium => "MEDIUM"
  | RiskLevel.high => "HIGH"

/-- Python `str(bool)`. -/
def pyBool : Bool → String
  | true => "True"
  | false => "False"

/-- `TaskProcessor._format_reasons`. -/
def format_reasons (reasons : List String) : String :=
  String.intercalate "\n" (reasons.map (fun r => "- " ++ r))

/-- The plan filename `f"{timestamp}_plan_{task_path.stem}.md"`. -/
def planNameOf (ts name : String) : String :=
  ts ++ "_plan_" ++ stemOf name ++ ".md"

/-- The plan body written by `TaskProcessor._create_plan` (the source's
f-string, assembled with explicit newlines). -/
def plan_content (taskName nowIso : String) (metadata : Metadata) (body : String)
    (decision : HITLDecision) : String :=
  "---\n" ++
  "task: " ++ taskName ++ "\n" ++
  "created: " ++ nowIso ++ "\n" ++
  "action_type: " ++ decision.action_type.value ++ "\n" ++
  "risk_level: " ++ decision.risk_level.value ++ "\n" ++
  "requires_approval: " ++ pyBool decision.requires_approval ++ "\n" ++
  "status: " ++
    (if decision.requires_approval then "pending_approval" else "auto_approved") ++ "\n" ++
  "---\n\n" ++
  "# Plan: " ++ mdGetD metadata "title" (stemOf taskName) ++ "\n\n" ++
  "## Original Task\n\n" ++
  "**Source**: " ++ mdGetD metadata "source" "Unknown" ++ "\n" ++
  "**Priority**: " ++ mdGetD metadata "priority" "normal" ++ "\n" ++
  "**Created**: " ++ mdGetD metadata "created" "Unknown" ++ "\n\n" ++
  "## HITL Analysis\n\n" ++
  "**Action Type**: " ++ decision.action_type.value ++ "\n" ++
  "**Risk Level**: " ++ decision.risk_level.upperValue ++ "\n" ++
  "**Requires Approval**: " ++ (if decision.requires_approval then "YES" else "No") ++
  "\n\n" ++
  "### Reasons\n" ++ format_reasons decision.reasons ++ "\n\n" ++
  "## Suggested Action\n\n" ++ decision.suggested_action ++ "\n\n" ++
  "## Task Content Summary\n\n" ++
  strOfChars (body.toList.take 1000) ++
  (if 1000 < body.toList.length then "..." else "") ++ "\n\n" ++
  "---\n\n" ++
  "## Execution Steps\n\n" ++
  "1. " ++
    (if decision.requires_approval then "AWAIT HUMAN APPROVAL"
     else "Auto-approved for execution") ++ "\n" ++
  "2. " ++ decision.suggested_action ++ "\n" ++
  "3. Log result to audit system\n" ++
  "4. Move to Done folder\n\n" ++
  "---\n\n" ++
  "*Generated by AI Employee System at " ++ nowIso ++ "*\n"

/-- `TaskProcessor._create_plan`: write the plan artifact into `Plans` and
log `plan_created`. -/
def create_plan (ts nowIso : String) (s : TPState) (name : String) (metadata : Metadata)
    (body : String) (decision : HITLDecision) : TPState :=
  { s with
    plans := setKey (planNameOf ts name)
      (plan_content name nowIso metadata body decision) s.plans
    audit := s.audit ++ ["plan_created"] }

/-- `TaskProcessor._route_to_pending`: move the task record (its content
travels with it) into `Pending_Approval`, copy the plan beside it, and log
`task_pending_approval`.  Both `shutil` calls silently replace an existing
destination entry (see `setKey`). -/
def route_to_pending (s : TPState) (name content planName planContent : String) : TPState :=
  { s with needs_action := eraseKey name s.needs_action
           pending := setKey planName planContent (setKey name content s.pending)
           audit := s.audit ++ ["task_pending_approval"] }

/-- `TaskProcessor._route_to_auto_approved`: like `_route_to_pending` but
into `Approved`, logging `task_auto_approved`. -/
def route_to_auto_approved (s : TPState) (name content planName planContent : String) :
    TPState :=
  { s with needs_action := eraseKey name s.needs_action
           approved := setKey planName planContent (setKey name content s.approved)
           audit := s.audit ++ ["task_auto_approved"] }

/-- `TaskProcessor.process_task` under a fault-free filesystem (reads, writes
and moves succeed; the only modelled raise is a missing source file, caught
by `process_all` as a `task_process_error` audit event). -/
def process_task (kc : List String) (yamlParse : String → Option Metadata)
    (ts nowIso : String) (s : TPState) (name : String) : TPState × Bool :=
  match lookupKey name s.needs_action with
  | none => ({ s with audit := s.audit ++ ["task_process_error"] }, false)
  | some content =>
      if (classify kc (parse_task yamlParse content).2
            (parse_task yamlParse content).1).requires_approval then
        (route_to_pending
          (create_plan ts nowIso s name (parse_task yamlParse content).1
            (parse_task yamlParse content).2
            (classify kc (parse_task yamlParse content).2 (parse_task yamlParse content).1))
          name content (planNameOf ts name)
          (plan_content name nowIso (parse_task yamlParse content).1
            (parse_task yamlParse content).2
            (classify kc (parse_task yamlParse content).2
              (parse_task yamlParse content).1)), true)
      else
        (route_to_auto_approved
          (create_plan ts nowIso s name (parse_task yamlParse content).1
            (parse_task yamlParse content).2
            (classify kc (parse_task yamlParse content).2 (parse_task yamlParse content).1))
          name content (planNameOf ts name)
          (plan_content name nowIso (parse_task yamlParse content).1
            (parse_task yamlParse content).2
            (classify kc (parse_task yamlParse content).2
              (parse_task yamlParse content).1)), true)

/-- The counting/`except` wrapper of the `process_all` loop body. -/
def count_success (r : TPState × Bool) (c : Nat) : TPState × Nat :=
  if r.2 then (r.1, c + 1) else (r.1, c)

/-- One iteration of the `for`/`try` loop of `process_all`. -/
def process_all_step (kc : List String) (yamlParse : String → Option Metadata)
    (ts nowIso : String) (acc : TPState × Nat) (name : String) : TPState × Nat :=
  count_success (process_task kc yamlParse ts nowIso acc.1 name) acc.2

/-- `TaskProcessor.process_all`: snapshot the `NeedsAction` listing, then
process each record. -/
def process_all (kc : List String) (yamlParse : String → Option Metadata)
    (ts nowIso : String) (s : TPState) : TPState × Nat :=
  (s.needs_action.map Prod.fst).foldl (process_all_step kc yamlParse ts nowIso) (s, 0)

/-! ## Claim C8 -/

/-- Processing the head record of `NeedsAction` removes exactly it and
succeeds. -/
theorem process_task_head (kc : List String) (yp : String → Option Metadata)
    (ts nowIso : String) (s : TPState) (n c : String) (tl : Folder)
    (h : s.needs_action = (n, c) :: tl) :
    (process_task kc yp ts nowIso s n).1.needs_action = tl ∧
      (process_task kc yp ts nowIso s n).2 = true := by
  have hlook : lookupKey n s.needs_action = some c := by
    rw [h]
    simp [lookupKey]
  have herase : eraseKey n s.needs_action = tl := by
    rw [h]
    simp [eraseKey]
  unfold process_task
  constructor
  · simp only [hlook]
    split
    · exact herase
    · exact herase
  · simp only [hlook]
    split
    · rfl
    · rfl

/-- The `process_all` loop drains `NeedsAction` completely. -/
theorem process_all_clears (kc : List String) (yp : String → Option Metadata)
    (ts nowIso : String) :
    ∀ l : Folder, ∀ s : TPState, s.needs_action = l → ∀ k : Nat,
      ((l.map Prod.fst).foldl (process_all_step kc yp ts nowIso) (s, k)).1.needs_action
        = [] := by
  intro l
  induction l with
  | nil =>
    intro s h k
    simpa using h
  | cons p tl ih =>
    intro s h k
    simp only [List.map_cons, List.foldl_cons]
    have hh := process_task_head kc yp ts nowIso s p.1 p.2 tl (by rw [h])
    have hstep : process_all_step kc yp ts nowIso (s, k) p.1 =
        ((process_task kc yp ts nowIso s p.1).1, k + 1) := by
      unfold process_all_step count_success
      rw [if_pos hh.2]
    rw [hstep]
    exact ih _ hh.1 (k + 1)

/-- C8: a second `process_all` scan right after a first one (no new records
added to `NeedsAction` in between) performs zero state transitions, emits
zero audit events — the state is returned unchanged — and processes zero
tasks: every record was relocated out of `NeedsAction` by the first scan and
nothing is ever reprocessed after leaving it. -/
theorem C8_second_scan_is_noop (kc : List String) (yp : String → Option Metadata)
    (ts1 now1 ts2 now2 : String) (s : TPState) :
    process_all kc yp ts2 now2 (process_all kc yp ts1 now1 s).1 =
      ((process_all kc yp ts1 now1 s).1, 0) := by
  have hemp : (process_all kc yp ts1 now1 s).1.needs_action = [] :=
    process_all_clears kc yp ts1 now1 s.needs_action s rfl 0
  show (((process_all kc yp ts1 now1 s).1.needs_action.map Prod.fst).foldl
      (process_all_step kc yp ts2 now2) ((process_all kc yp ts1 now1 s).1, 0)) =
      ((process_all kc yp ts1 now1 s).1, 0)
  rw [hemp]
  rfl

/-! ## Claim C4 -/

/-- `setKey` leaves the written value at the key. -/
theorem lookup_setKey_self (k v : String) (l : Folder) :
    lookupKey k (setKey k v l) = some v := by
  induction l with
  | nil => simp [setKey, lookupKey]
  | cons kv t ih =>
    unfold setKey
    by_cases hk : kv.1 = k
    · simp [hk, lookupKey]
    · simp [hk, lookupKey, ih]

/-- `setKey` does not disturb other keys. -/
theorem lookup_setKey_ne (k k2 v : String) (l : Folder) (h : k ≠ k2) :
    lookupKey k (setKey k2 v l) = lookupKey k l := by
  have h2 : ¬(k2 = k) := fun he => h he.symm
  induction l with
  | nil =>
    show lookupKey k [(k2, v)] = none
    unfold lookupKey
    rw [if_neg h2]
    rfl
  | cons kv t ih =>
    unfold setKey
    by_cases hk : kv.1 = k2
    · rw [if_pos hk]
      unfold lookupKey
      rw [if_neg h2, if_neg (by rw [hk]; exact h2)]
    · rw [if_neg hk]
      unfold lookupKey
      by_cases hk2 : kv.1 = k
      · rw [if_pos hk2, if_pos hk2]
      · rw [if_neg hk2, if_neg hk2, ih]

/-- C4 counterexample: the claim fails as stated.  With `t.md` already
present in `Pending_Approval`, relocating a fresh `t.md` out of
`NeedsAction` raises no error: the transition completes normally and the
pre-existing destination file (content `"old pending"`) is silently replaced
by the moved record. -/
theorem C4_counterexample :
    (route_to_pending
        ⟨[("t.md", "new task")], [], [("t.md", "old pending")], [], []⟩
        "t.md" "new task" "20250101_120000_plan_t.md" "plan body").pending =
      [("t.md", "new task"), ("20250101_120000_plan_t.md", "plan body")] ∧
      (route_to_pending
        ⟨[("t.md", "new task")], [], [("t.md", "old pending")], [], []⟩
        "t.md" "new task" "20250101_120000_plan_t.md" "plan body").needs_action = [] := by
  constructor
  · rfl
  · rfl

/-- C4 (amended): when a file with the task's name already exists at the
destination, the transition does not fail — it completes and silently
replaces the destination entry with the moved record's content (POSIX
`os.rename` semantics of `shutil.move`); this holds for both the
`Pending_Approval` and the `Approved` route. -/
theorem C4_route_overwrites (s : TPState) (name content planName planContent
    oldPending oldApproved : String)
    (hpen : lookupKey name s.pending = some oldPending)
    (happ : lookupKey name s.approved = some oldApproved)
    (hne : planName ≠ name) :
    lookupKey name (route_to_pending s name content planName planContent).pending
        = some content ∧
      lookupKey name (route_to_auto_approved s name content planName planContent).approved
        = some content := by
  constructor
  · show lookupKey name (setKey planName planContent (setKey name content s.pending))
        = some content
    rw [lookup_setKey_ne name planName planContent _ (Ne.symm hne)]
    exact lookup_setKey_self name content s.pending
  · show lookupKey name (setKey planName planContent (setKey name content s.approved))
        = some content
    rw [lookup_setKey_ne name planName planContent _ (Ne.symm hne)]
    exact lookup_setKey_self name content s.approved

/-- C4 witness: a concrete occupied destination, silently overwritten on both
routes. -/
theorem C4_witness :
    lookupKey "a.md"
        (route_to_pending ⟨[("a.md", "new")], [], [("a.md", "stale")], [("a.md", "stale2")], []⟩
          "a.md" "new" "p_plan_a.md" "plan").pending = some "new" ∧
      lookupKey "a.md"
        (route_to_auto_approved ⟨[("a.md", "new")], [], [("a.md", "stale")], [("a.md", "stale2")], []⟩
          "a.md" "new" "p_plan_a.md" "plan").approved = some "new" :=
  C4_route_overwrites ⟨[("a.md", "new")], [], [("a.md", "stale")], [("a.md", "stale2")], []⟩
    "a.md" "new" "p_plan_a.md" "plan" "stale" "stale2" (by decide) (by decide) (by decide)

end AIEmployee
